import Mathlib

/-!
Verification development for the match-outcome modeling and value-betting
engine in `main.py` (class `OmniHybridBot`).  The Python floats are modelled
as exact rationals (`ℚ`) for the pure decision/ledger arithmetic and as real
numbers (`ℝ`) for the Poisson/Dixon-Coles analytic layer, which uses `exp`.
-/

namespace Renpho

/-! ## Configuration constants (main.py, lines 26-53) -/

/-- Constant `MIN_ODD_THRESHOLD = 1.45` (main.py line 29). -/
def MIN_ODD_THRESHOLD : ℚ := 29 / 20

/-- Constant `KELLY_FRACTION = 0.20` (main.py line 52). -/
def KELLY_FRACTION : ℚ := 1 / 5

/-- Constant `MAX_STAKE_PCT = 0.05` (main.py line 53). -/
def MAX_STAKE_PCT : ℚ := 1 / 20

/-- Constant `DECAY_ALPHA = 0.88` (main.py line 27). -/
def DECAY_ALPHA : ℚ := 22 / 25

/-- The keys of `LEAGUE_CONFIG` (main.py lines 63-81). -/
def league_keys : List String :=
  ["E0", "SP1", "I1", "D1", "F1", "P1", "N1", "B1", "T1", "G1", "SC0", "EU_CUP"]

/-- Constant `TOP_5_LEAGUES` (main.py line 60). -/
def TOP_5_LEAGUES : List String := ["E0", "SP1", "I1", "D1", "F1"]

/-! ## Python `in` on strings

`check_bet_result` tests e.g. `"HOME" in pick`.  We model Python's substring
operator by structural recursion over the character lists. -/

/-- Predicate `leadsWith sub s`: holds when `sub` is an initial segment of `s`. -/
def leadsWith : List Char → List Char → Bool
  | [], _ => true
  | _ :: _, [] => false
  | a :: as, b :: bs => a == b && leadsWith as bs

/-- Predicate `hasSubList sub s`: `sub` occurs contiguously somewhere in `s`. -/
def hasSubList (sub : List Char) : List Char → Bool
  | [] => leadsWith sub []
  | c :: rest => leadsWith sub (c :: rest) || hasSubList sub rest

/-- Python's `sub in s` for strings. -/
def pyIn (sub s : String) : Bool := hasSubList sub.data s.data

/-! ## Python `round(x, 2)`

`run_audit` stores `round(profit, 2)` (main.py line 433).  Python rounds the
nearest binary double to two decimals; on exact rationals we take
round-half-to-even of the exact value.  The two agree whenever the exact
value is not within the double's representation error of a two-decimal tie
(for example `0.03*1.5-0.03` is the double `0.01499999…`, recorded as
`0.01`), so every statement below about recorded profits is scoped away from
exact two-decimal ties. -/

/-- Round a rational to the nearest integer, ties to even. -/
def roundHalfEven (x : ℚ) : ℤ :=
  let n := ⌊x⌋
  let r := x - n
  if r < 1 / 2 then n
  else if r > 1 / 2 then n + 1
  else if n % 2 = 0 then n else n + 1

/-- Python `round(x, 2)`, idealized on exact rationals (see above). -/
def pyRound2 (x : ℚ) : ℚ := (roundHalfEven (x * 100) : ℚ) / 100

/-! ## Candidate records (`find_best_value.add`, main.py lines 294-327) -/

/-- The dict built by `find_best_value.add` (main.py line 324). -/
structure Candidate where
  pick : String
  market : String
  prob : ℚ
  odd : ℚ
  ev : ℚ
  score : ℚ
  status : String
  reason : String
  gcs : Option ℚ
deriving DecidableEq

/-- The body of `find_best_value.add` up to the point where the item dict is
built (main.py lines 298-324): the minimum-odd filter, EV, hybrid score,
rejection chain, goal-market gate, handicap override and the
double-chance/draw-no-bet score boost.  Returns `none` exactly when the
candidate is discarded by the minimum-odd filter. -/
def mkCandidate (name market : String) (prob odd : ℚ) (gcs : Option ℚ)
    (min_ev_league : ℚ) : Option Candidate :=
  if odd < MIN_ODD_THRESHOLD then none else
  let ev := prob * odd - 1
  let score := prob * 100 + ev * 50
  let sr : String × String :=
    if ev < min_ev_league then ("REJECTED", "EV Bajo")
    else if prob < 2 / 5 then ("REJECTED", "Riesgo Alto")
    else if ev > 9 / 20 then ("REJECTED", "Error Modelo")
    else ("VALID", "OK")
  let sr : String × String :=
    if market = "GOALS" then
      match gcs with
      | some g =>
          if g < 55 then ("REJECTED", "GCS Bajo")
          else if prob > 13 / 20 ∨ prob < 7 / 20 then ("REJECTED", "Prob Extrema")
          else sr
      | none => sr
    else sr
  let sr : String × String :=
    if market = "HANDI" then ("BACKUP", "Reserva Parlay") else sr
  let score := if market = "Double Chance" ∨ market = "DNB" then score * (23 / 20) else score
  some { pick := name, market := market, prob := prob, odd := odd, ev := ev,
         score := score, status := sr.1, reason := sr.2, gcs := gcs }

/-- The two accumulator lists of `find_best_value` (main.py lines 295-296). -/
structure SelState where
  candidates : List Candidate
  handicap_candidates : List Candidate
deriving DecidableEq

/-- One call of `find_best_value.add`: build the item and append it to the
handicap list for `HANDI` markets, to the main list otherwise
(main.py lines 326-327). -/
def addCand (s : SelState) (name market : String) (prob odd : ℚ) (gcs : Option ℚ)
    (min_ev_league : ℚ) : SelState :=
  match mkCandidate name market prob odd gcs min_ev_league with
  | none => s
  | some item =>
      if market = "HANDI" then
        { s with handicap_candidates := s.handicap_candidates ++ [item] }
      else
        { s with candidates := s.candidates ++ [item] }

/-- The simulation output dict consumed by `find_best_value`
(main.py lines 275-281; only the fields it reads). -/
structure SimResult where
  p1x2 : ℚ × ℚ × ℚ
  goals : ℚ × ℚ
  dc : ℚ × ℚ
  dnb : ℚ × ℚ
  ah : ℚ × ℚ × ℚ × ℚ
  gcs : ℚ
deriving DecidableEq

/-- The averaged odds dict (main.py lines 287-291). -/
structure MarketOdds where
  H : ℚ
  D : ℚ
  A : ℚ
  O25 : ℚ
  BTTS_Y : ℚ
deriving DecidableEq

/-- First element with the maximal score: the head of Python's stable
`sort(key=score, reverse=True)` (main.py lines 347, 351, 354). -/
def bestByScore : List Candidate → Option Candidate
  | [] => none
  | c :: rest =>
      match bestByScore rest with
      | none => some c
      | some d => if d.score > c.score then some d else some c

/-- The six `add` calls guarded by `if odds['H'] > 0`
(main.py lines 329-335). -/
def selH (s : SelState) (sim : SimResult) (odds : MarketOdds) (min_ev_league : ℚ) : SelState :=
  if odds.H > 0 then
    let s := addCand s "GANA HOME" "1X2" sim.p1x2.1 odds.H none min_ev_league
    let s := addCand s "GANA AWAY" "1X2" sim.p1x2.2.2 odds.A none min_ev_league
    let s := addCand s "DNB HOME" "DNB" sim.dnb.1
      ((odds.H * (1 - 1 / odds.D)) * (47 / 50)) none min_ev_league
    let s := addCand s "DNB AWAY" "DNB" sim.dnb.2
      ((odds.A * (1 - 1 / odds.D)) * (47 / 50)) none min_ev_league
    let s := addCand s "DC 1X" "Double Chance" sim.dc.1
      (1 / (1 / odds.H + 1 / odds.D) * (47 / 50)) none min_ev_league
    addCand s "DC X2" "Double Chance" sim.dc.2
      (1 / (1 / odds.A + 1 / odds.D) * (47 / 50)) none min_ev_league
  else s

/-- The two `add` calls guarded by `if odds['O25'] > 0`
(main.py lines 336-338). -/
def selO25 (s : SelState) (sim : SimResult) (odds : MarketOdds) (min_ev_league : ℚ) : SelState :=
  if odds.O25 > 0 then
    let s := addCand s "OVER 2.5 GOLES" "GOALS" sim.goals.1 odds.O25
      (some sim.gcs) min_ev_league
    addCand s "UNDER 2.5 GOLES" "GOALS" (1 - sim.goals.1)
      (1 / (1 - (1 / odds.O25 * (21 / 20)))) (some sim.gcs) min_ev_league
  else s

/-- The two `add` calls guarded by `if odds['BTTS_Y'] > 0`
(main.py lines 339-341). -/
def selBTTS (s : SelState) (sim : SimResult) (odds : MarketOdds) (min_ev_league : ℚ) : SelState :=
  if odds.BTTS_Y > 0 then
    let s := addCand s "BTTS SÍ" "BTTS" sim.goals.2 odds.BTTS_Y none min_ev_league
    addCand s "BTTS NO" "BTTS" (1 - sim.goals.2)
      (1 / (1 - (1 / odds.BTTS_Y * (21 / 20)))) none min_ev_league
  else s

/-- The two handicap-coverage `add` calls at hard-coded odd `1.15`
(main.py lines 343-345). -/
def selAH (s : SelState) (sim : SimResult) (min_ev_league : ℚ) : SelState :=
  let s := if sim.ah.2.2.1 > 9 / 10 then
      addCand s "HANDICAP H +1.5" "HANDI" sim.ah.2.2.1 (23 / 20) none min_ev_league
    else s
  if sim.ah.2.2.2 > 9 / 10 then
    addCand s "HANDICAP A +1.5" "HANDI" sim.ah.2.2.2 (23 / 20) none min_ev_league
  else s

/-- The candidate-enumeration phase of `find_best_value`
(main.py lines 329-345): the twelve conditional `add` calls. -/
def sel_state (sim : SimResult) (odds : MarketOdds) (min_ev_league : ℚ) : SelState :=
  selAH (selBTTS (selO25 (selH ⟨[], []⟩ sim odds min_ev_league)
    sim odds min_ev_league) sim odds min_ev_league) sim min_ev_league

/-- Function `find_best_value` (main.py lines 294-355): returns the principal pick and
the best backup (handicap) pick. -/
def find_best_value (sim : SimResult) (odds : MarketOdds) (min_ev_league : ℚ) :
    Option Candidate × Option Candidate :=
  let s := sel_state sim odds min_ev_league
  let best_handi := bestByScore s.handicap_candidates
  let principales := s.candidates.filter (fun c => c.status == "VALID")
  if principales.isEmpty then (bestByScore s.candidates, best_handi)
  else (bestByScore principales, best_handi)

/-! ## Stake sizing (`get_kelly_stake`, main.py lines 357-367) -/

/-- Python truthiness of the `gcs` argument (`None` and `0` are falsy). -/
def gcsTruthy : Option ℚ → Bool
  | none => false
  | some g => decide (g ≠ 0)

/-- Function `get_kelly_stake` (main.py lines 357-367). -/
def get_kelly_stake (prob odds : ℚ) (market : String) (gcs : Option ℚ) : ℚ :=
  if odds ≤ 1 then 0 else
  let q := 1 - prob
  let b := odds - 1
  let full := (b * prob - q) / b
  let stake := full * KELLY_FRACTION
  let stake :=
    if (market = "GOALS" ∨ market = "BTTS") ∧ gcsTruthy gcs then
      stake * min 1 (gcs.getD 0 / 75)
    else stake
  let stake := if prob > 3 / 5 then stake * (6 / 5) else stake
  max 0 (min stake MAX_STAKE_PCT)

/-! ## Settlement (`check_bet_result` / `run_audit`, main.py lines 386-442) -/

/-- Function `check_bet_result` (main.py lines 386-406).  A `none` home goal count
models `math.isnan(fthg)`. -/
def check_bet_result (pick market : String) (fthg ftag : Option ℤ) : String :=
  match fthg with
  | none => "PENDING"
  | some hg =>
      let ag := ftag.getD 0
      if market = "DNB" ∧ hg = ag then "PUSH" else
      let win : Bool :=
        if market = "1X2" then
          if pyIn "HOME" pick ∧ hg > ag then true
          else if pyIn "AWAY" pick ∧ ag > hg then true
          else if pyIn "DRAW" pick ∧ hg = ag then true
          else false
        else if market = "DNB" then
          if pyIn "HOME" pick ∧ hg > ag then true
          else if pyIn "AWAY" pick ∧ ag > hg then true
          else false
        else if market = "Double Chance" then
          if (pyIn "1X" pick ∧ hg ≥ ag) ∨ (pyIn "X2" pick ∧ ag ≥ hg) then true
          else false
        else if market = "GOALS" then
          if pyIn "OVER" pick ∧ ((hg : ℚ) + ag > 5 / 2) then true
          else if pyIn "UNDER" pick ∧ ((hg : ℚ) + ag < 5 / 2) then true
          else false
        else if market = "BTTS" then
          if pyIn "SÍ" pick ∧ (hg > 0 ∧ ag > 0) then true
          else if pyIn "NO" pick ∧ ¬(hg > 0 ∧ ag > 0) then true
          else false
        else false
      if win then "WIN" else "LOSS"

/-- One CSV row of the history ledger (main.py line 110), with the fields
`run_audit` reads and writes already parsed. -/
structure LedgerRow where
  date : String
  league : String
  home : String
  away : String
  pick : String
  market : String
  prob : ℚ
  odd : ℚ
  ev : ℚ
  status : String
  stake : ℚ
  profit : ℚ
  fthg : Option ℤ
  ftag : Option ℤ
deriving DecidableEq

/-- The statuses `run_audit` is willing to settle (main.py line 418). -/
def audit_trigger_statuses : List String := ["VALID", "0", "BACKUP"]

/-- The terminal settlement statuses (main.py line 428). -/
def settled_statuses : List String := ["WIN", "LOSS", "PUSH"]

/-- The per-row settlement transformation of `run_audit`
(main.py lines 417-435).  `lookup div home away` abstracts the league-data
fetch plus the dataframe match lookup: `none` when the league has no data or
the fixture is not found, otherwise the recorded `(FTHG, FTAG)` pair (each
`none` when NaN, i.e. the match is not played yet). -/
def settleRow (lookup : String → String → String → Option (Option ℤ × Option ℤ))
    (r : LedgerRow) : LedgerRow :=
  if r.status ∈ audit_trigger_statuses ∧ r.league ∈ league_keys then
    match lookup r.league r.home r.away with
    | some (fthg, ftag) =>
        let res := check_bet_result r.pick r.market fthg ftag
        if res ∈ settled_statuses then
          let profit : ℚ :=
            if res = "WIN" then r.stake * r.odd - r.stake
            else if res = "LOSS" then -r.stake
            else 0
          { r with status := res, fthg := fthg, ftag := ftag, profit := pyRound2 profit }
        else r
    | none => r
  else r

/-- The ledger-wide effect of one `run_audit` pass (main.py lines 412-437):
every row is rewritten through `settleRow`. -/
def run_audit (lookup : String → String → String → Option (Option ℤ × Option ℤ))
    (ledger : List LedgerRow) : List LedgerRow :=
  ledger.map (settleRow lookup)

/-! ## PnL aggregation (`calculate_pnl`, main.py lines 444-454) -/

/-- Function `calculate_pnl` (main.py lines 444-454): sum `Profit` and `Stake` over the
whole CSV and report `(total_profit, roi)`. -/
def calculate_pnl (ledger : List LedgerRow) : ℚ × ℚ :=
  let total_profit := (ledger.map (fun r => r.profit)).sum
  let total_invested := (ledger.map (fun r => r.stake)).sum
  let roi := if total_invested > 0 then total_profit / total_invested * 100 else 0
  (total_profit, roi)

/-- Modelled from the spec: "Sums `profit` and `stake` across all settled
ledger entries; reports total profit and `ROI = totalProfit/totalStaked×100`
(0 when nothing staked)."  Used only to compare the code's `calculate_pnl`
against the specified behaviour. -/
def calculate_pnl_spec (ledger : List LedgerRow) : ℚ × ℚ :=
  let settled := ledger.filter (fun r => decide (r.status ∈ settled_statuses))
  let total_profit := (settled.map (fun r => r.profit)).sum
  let total_invested := (settled.map (fun r => r.stake)).sum
  let roi := if total_invested > 0 then total_profit / total_invested * 100 else 0
  (total_profit, roi)

/-! ## Team ratings (`calculate_team_stats`, main.py lines 141-154) -/

/-- One row of the filtered match dataframe, seen from one team's
perspective: `homeSide` is true when `row['HomeTeam'] == team`.  `hst`/`ast`
are `none` when the shots-on-target columns are absent
(`row.get('HST', row['FTHG']*3)`). -/
structure TeamMatch where
  homeSide : Bool
  fthg : ℚ
  ftag : ℚ
  hst : Option ℚ
  ast : Option ℚ
deriving DecidableEq

/-- The per-row attack figure of `calculate_team_stats`
(main.py lines 148, 151). -/
def row_att (m : TeamMatch) : ℚ :=
  if m.homeSide then
    m.fthg * (3 / 5) + (m.hst.getD (m.fthg * 3) / 3) * (2 / 5)
  else
    m.ftag * (3 / 5) + (m.ast.getD (m.ftag * 3) / 3) * (2 / 5)

/-- The per-row defensive-weakness figure of `calculate_team_stats`
(main.py lines 149, 152). -/
def row_def_weak (m : TeamMatch) : ℚ :=
  if m.homeSide then
    m.ftag * (3 / 5) + (m.ast.getD (m.ftag * 3) / 3) * (2 / 5)
  else
    m.fthg * (3 / 5) + (m.hst.getD (m.fthg * 3) / 3) * (2 / 5)

/-- The decay weight `pow(DECAY_ALPHA, 5 - i)` (main.py line 146). -/
def decay_weight (i : ℕ) : ℚ := DECAY_ALPHA ^ (5 - i)

/-- The loop accumulation `w_att += att * weight` over the enumerated
window. -/
def weighted_sum (f : TeamMatch → ℚ) : ℕ → List TeamMatch → ℚ
  | _, [] => 0
  | i, m :: rest => f m * decay_weight i + weighted_sum f (i + 1) rest

/-- The loop accumulation `total_w += weight`. -/
def total_weight : ℕ → List TeamMatch → ℚ
  | _, [] => 0
  | i, _ :: rest => decay_weight i + total_weight (i + 1) rest

/-- Function `calculate_team_stats` (main.py lines 141-154): `history` is the team's
chronologically ordered matches; `.tail(6)` keeps the last six. -/
def calculate_team_stats (history : List TeamMatch) : ℚ × ℚ :=
  let recent := history.drop (history.length - 6)
  if recent.length < 3 then (1, 1) else
  let w_att := weighted_sum row_att 0 recent
  let w_def := weighted_sum row_def_weak 0 recent
  let total_w := total_weight 0 recent
  (w_att / total_w, w_def / total_w)

/-! ## Output processing (`process_match_output`, main.py lines 487-551) -/

/-- The CSV decision record appended by `process_match_output`
(main.py line 551). -/
structure HistRecord where
  date : String
  league : String
  home : String
  away : String
  pick : String
  market : String
  prob : ℚ
  odd : ℚ
  ev : ℚ
  status : String
  stake : ℚ
deriving DecidableEq

/-- The decision-record side of `process_match_output` (main.py lines
487-551): `none` when no CSV row is appended for the fixture.  The Telegram
message and the in-memory buffers are delivery concerns outside the core. -/
def process_match_output (div rh ra today : String)
    (best_bet : Option Candidate) : Option HistRecord :=
  if ¬(div = "EU_CUP") ∧ div ∉ TOP_5_LEAGUES then none
  else match best_bet with
  | none => none
  | some bb =>
      let stake :=
        if bb.status = "VALID" then get_kelly_stake bb.prob bb.odd bb.market bb.gcs
        else 0
      if div ∈ league_keys ∧ ¬(div = "EU_CUP") then
        some { date := today, league := div, home := rh, away := ra,
               pick := bb.pick, market := bb.market, prob := bb.prob,
               odd := bb.odd, ev := bb.ev, status := bb.status, stake := stake }
      else none

/-! ## Analytic 1X2 layer (`poisson_prob` / `calculate_dixon_coles_1x2` /
the market-blend step of `simulate_match`, main.py lines 186-243) -/

/-- Function `poisson_prob` (main.py lines 187-188). -/
noncomputable def poisson_prob (k : ℕ) (lamb : ℝ) : ℝ :=
  lamb ^ k * Real.exp (-lamb) / (Nat.factorial k)

/-- Constant `rho = -0.13` (main.py line 191). -/
noncomputable def dc_rho : ℝ := -(13 / 100)

/-- The Dixon-Coles low-score correction factor (main.py lines 195-199). -/
noncomputable def dc_correction (lambda_h lambda_a : ℝ) (x y : ℕ) : ℝ :=
  if x = 0 ∧ y = 0 then 1 - lambda_h * lambda_a * dc_rho
  else if x = 0 ∧ y = 1 then 1 + lambda_h * dc_rho
  else if x = 1 ∧ y = 0 then 1 + lambda_a * dc_rho
  else if x = 1 ∧ y = 1 then 1 - dc_rho
  else 1

/-- The corrected scoreline mass at `(x, y)`: `final_p` (main.py line 200). -/
noncomputable def dc_cell (lambda_h lambda_a : ℝ) (x y : ℕ) : ℝ :=
  poisson_prob x lambda_h * poisson_prob y lambda_a * dc_correction lambda_h lambda_a x y

/-- Function `calculate_dixon_coles_1x2` (main.py lines 190-204): the triple
`(prob_h, prob_d, prob_a)` summed over the 0-6 scoreline grid. -/
noncomputable def calculate_dixon_coles_1x2 (lambda_h lambda_a : ℝ) : ℝ × ℝ × ℝ :=
  (∑ x ∈ Finset.range 7, ∑ y ∈ Finset.range 7,
      if y < x then dc_cell lambda_h lambda_a x y else 0,
   ∑ x ∈ Finset.range 7, ∑ y ∈ Finset.range 7,
      if x = y then dc_cell lambda_h lambda_a x y else 0,
   ∑ x ∈ Finset.range 7, ∑ y ∈ Finset.range 7,
      if x < y then dc_cell lambda_h lambda_a x y else 0)

/-- One raw blended probability of `simulate_match`
(main.py lines 233-241): `(1/odd)/margin * w_market + prob * w_model`. -/
noncomputable def blend_raw (prob odd w_market : ℝ) : ℝ :=
  (1 / odd) / (21 / 20) * w_market + prob * (1 - w_market)

/-- Value `total = raw_h + raw_a + raw_d` (main.py line 242). -/
noncomputable def blend_total (model : ℝ × ℝ × ℝ) (oddH oddD oddA w_market : ℝ) : ℝ :=
  blend_raw model.1 oddH w_market + blend_raw model.2.2 oddA w_market
    + blend_raw model.2.1 oddD w_market

/-- The market-blending step of `simulate_match` applied to the analytic
`(prob_h, prob_d, prob_a)` triple (main.py lines 232-243): renormalize the
weighted mix when quoted odds are present and the mix has positive mass. -/
noncomputable def simulate_match_blend_1x2 (model : ℝ × ℝ × ℝ)
    (oddH oddD oddA w_market : ℝ) : ℝ × ℝ × ℝ :=
  if oddH > 0 then
    let t := blend_total model oddH oddD oddA w_market
    if t > 0 then
      (blend_raw model.1 oddH w_market / t,
       blend_raw model.2.1 oddD w_market / t,
       blend_raw model.2.2 oddA w_market / t)
    else model
  else model

/-! ## C2: rejection-rule ordering in `find_best_value.add` -/

/-- The EV-floor / probability-floor / EV-ceiling rejection chain in its
stated priority order (main.py lines 311-313). -/
def rejection_chain (ev prob min_ev_league : ℚ) : String × String :=
  if ev < min_ev_league then ("REJECTED", "EV Bajo")
  else if prob < 2 / 5 then ("REJECTED", "Riesgo Alto")
  else if ev > 9 / 20 then ("REJECTED", "Error Modelo")
  else ("VALID", "OK")

/-- The goal-market gate (main.py lines 315-317). -/
def goals_gate (gcs : Option ℚ) (prob : ℚ) (sr : String × String) : String × String :=
  match gcs with
  | some g =>
      if g < 55 then ("REJECTED", "GCS Bajo")
      else if prob > 13 / 20 ∨ prob < 7 / 20 then ("REJECTED", "Prob Extrema")
      else sr
  | none => sr

/-- Claim C2 (counterexample): the claim says the recorded reason comes from the
first matching rule of the stated priority order, so a goal-market candidate
whose EV is below the league minimum should read "EV Bajo".  At
`prob = 1/2`, `odd = 1.5`, `min_ev = 1/50`, `gcs = 50` the EV rule matches
first (`ev = -1/4 < 1/50`), yet the code records "GCS Bajo": the goal-market
gate runs in a separate `if` after the chain and overwrites its verdict. -/
theorem C2_counterexample :
    (mkCandidate "OVER 2.5 GOLES" "GOALS" (1 / 2) (3 / 2) (some 50) (1 / 50)).map
        (fun c => (c.status, c.reason)) = some ("REJECTED", "GCS Bajo")
    ∧ ((1 : ℚ) / 2 * (3 / 2) - 1 < 1 / 50)
    ∧ "GCS Bajo" ≠ "EV Bajo" := by
  refine ⟨?_, by norm_num, by decide⟩
  norm_num [mkCandidate, MIN_ODD_THRESHOLD]
  decide

/-- Claim C2 (amended): candidates with odd below 1.45 are dropped before any
scoring; otherwise the EV-floor, probability-floor and EV-ceiling rules apply
as an if/elif chain in the stated priority order, but the goal-market gate
(composite confidence below 55, or probability outside (0.35, 0.65)) is
applied afterwards for `GOALS` markets and overrides the chain's verdict,
and handicap candidates are finally re-tagged `BACKUP`. -/
theorem C2_rejection_rules (name market : String) (prob odd : ℚ) (gcs : Option ℚ)
    (min_ev_league : ℚ) :
    (odd < MIN_ODD_THRESHOLD → mkCandidate name market prob odd gcs min_ev_league = none)
    ∧ (¬odd < MIN_ODD_THRESHOLD →
        (mkCandidate name market prob odd gcs min_ev_league).map (fun c => (c.status, c.reason))
          = some (if market = "HANDI" then ("BACKUP", "Reserva Parlay")
              else if market = "GOALS" then
                goals_gate gcs prob (rejection_chain (prob * odd - 1) prob min_ev_league)
              else rejection_chain (prob * odd - 1) prob min_ev_league)) := by
  constructor
  · intro h
    simp [mkCandidate, h]
  · intro h
    by_cases hH : market = "HANDI"
    · subst hH
      simp [mkCandidate, h]
    · by_cases hG : market = "GOALS"
      · subst hG
        simp only [mkCandidate, if_neg h, Option.map_some']
        rcases gcs with _ | g <;> simp [goals_gate, rejection_chain]
      · simp [mkCandidate, if_neg h, if_neg hH, if_neg hG, rejection_chain]

/-- Witness for `C2_rejection_rules` at two concrete inputs: an odd of 1.40 is
dropped by the minimum-odd filter, and a 1X2 candidate at `prob = 3/5`,
`odd = 2` survives the chain as VALID. -/
theorem C2_witness :
    mkCandidate "GANA HOME" "1X2" (1 / 2) (7 / 5) none (1 / 50) = none
    ∧ (mkCandidate "GANA HOME" "1X2" (3 / 5) 2 none (1 / 50)).map
        (fun c => (c.status, c.reason)) = some ("VALID", "OK") := by
  constructor
  · exact (C2_rejection_rules "GANA HOME" "1X2" (1 / 2) (7 / 5) none (1 / 50)).1
      (by norm_num [MIN_ODD_THRESHOLD])
  · have h := (C2_rejection_rules "GANA HOME" "1X2" (3 / 5) 2 none (1 / 50)).2
      (by norm_num [MIN_ODD_THRESHOLD])
    rw [(by norm_num [rejection_chain] :
      rejection_chain ((3 : ℚ) / 5 * 2 - 1) (3 / 5) (1 / 50) = ("VALID", "OK"))] at h
    simp only [goals_gate] at h
    simpa using h

/-! ## C4: Kelly staking -/

/-- Clamping into `[0, MAX_STAKE_PCT]` is monotone, and a non-positive
pre-clamp stake clamps below everything. -/
lemma clamp_mono {s₁ s₂ : ℚ} (h : s₁ ≤ 0 ∨ s₁ ≤ s₂) :
    max 0 (min s₁ MAX_STAKE_PCT) ≤ max 0 (min s₂ MAX_STAKE_PCT) := by
  rcases h with h | h
  · exact le_trans (max_le le_rfl (le_trans (min_le_left _ _) h)) (le_max_left _ _)
  · exact max_le_max le_rfl (min_le_min h le_rfl)

/-- The `prob > 0.60` boost step followed by the clamp keeps monotonicity. -/
lemma kelly_boost_clamp {t₁ t₂ p₁ p₂ : ℚ} (ht : t₁ ≤ t₂) (hp : p₁ ≤ p₂) :
    max 0 (min (if p₁ > 3 / 5 then t₁ * (6 / 5) else t₁) MAX_STAKE_PCT)
      ≤ max 0 (min (if p₂ > 3 / 5 then t₂ * (6 / 5) else t₂) MAX_STAKE_PCT) := by
  by_cases h1 : p₁ > 3 / 5
  · have h2 : p₂ > 3 / 5 := lt_of_lt_of_le h1 hp
    rw [if_pos h1, if_pos h2]
    exact clamp_mono (Or.inr (by nlinarith))
  · by_cases h2 : p₂ > 3 / 5
    · rw [if_neg h1, if_pos h2]
      by_cases hneg : t₁ ≤ 0
      · exact clamp_mono (Or.inl hneg)
      · push_neg at hneg
        exact clamp_mono (Or.inr (by nlinarith))
    · rw [if_neg h1, if_neg h2]
      exact clamp_mono (Or.inr ht)

/-- Claim C4: for a fixed odd, market and (non-negative) confidence score the
Kelly stake is monotone in the probability over `[0, 1]`; the stake always
lies in `[0, MAX_STAKE_PCT]`; an odd of at most 1 yields stake 0; and a
negative full-Kelly fraction yields stake 0. -/
theorem C4_kelly_stake_props :
    (∀ (odds : ℚ) (market : String) (gcs : Option ℚ) (p₁ p₂ : ℚ),
        (∀ g ∈ gcs, 0 ≤ g) → 0 ≤ p₁ → p₁ ≤ p₂ → p₂ ≤ 1 →
        get_kelly_stake p₁ odds market gcs ≤ get_kelly_stake p₂ odds market gcs)
    ∧ (∀ (prob odds : ℚ) (market : String) (gcs : Option ℚ),
        0 ≤ get_kelly_stake prob odds market gcs
        ∧ get_kelly_stake prob odds market gcs ≤ MAX_STAKE_PCT)
    ∧ (∀ (prob odds : ℚ) (market : String) (gcs : Option ℚ),
        odds ≤ 1 → get_kelly_stake prob odds market gcs = 0)
    ∧ (∀ (prob odds : ℚ) (market : String) (gcs : Option ℚ),
        (∀ g ∈ gcs, 0 ≤ g) → 1 < odds →
        ((odds - 1) * prob - (1 - prob)) / (odds - 1) < 0 →
        get_kelly_stake prob odds market gcs = 0) := by
  refine ⟨?_, ?_, ?_, ?_⟩
  · intro odds market gcs p₁ p₂ hg hp0 hp12 hp21
    unfold get_kelly_stake
    by_cases ho : odds ≤ 1
    · simp [ho]
    · simp only [if_neg ho]
      push_neg at ho
      have hb : (0 : ℚ) < odds - 1 := by linarith
      have hnum : (odds - 1) * p₁ - (1 - p₁) ≤ (odds - 1) * p₂ - (1 - p₂) := by nlinarith
      have hfull : ((odds - 1) * p₁ - (1 - p₁)) / (odds - 1)
          ≤ ((odds - 1) * p₂ - (1 - p₂)) / (odds - 1) :=
        (div_le_div_iff_of_pos_right hb).mpr hnum
      have hKF : (0 : ℚ) ≤ KELLY_FRACTION := by norm_num [KELLY_FRACTION]
      by_cases hc : (market = "GOALS" ∨ market = "BTTS") ∧ gcsTruthy gcs
      · simp only [if_pos hc]
        have hcg : 0 ≤ min 1 (gcs.getD 0 / 75) := by
          rcases gcs with _ | g
          · simp [gcsTruthy] at hc
          · have hg0 := hg g (by simp)
            simp only [Option.getD_some]
            exact le_min (by norm_num) (by positivity)
        exact kelly_boost_clamp
          (mul_le_mul_of_nonneg_right (mul_le_mul_of_nonneg_right hfull hKF) hcg) hp12
      · simp only [if_neg hc]
        exact kelly_boost_clamp (mul_le_mul_of_nonneg_right hfull hKF) hp12
  · intro prob odds market gcs
    unfold get_kelly_stake
    by_cases ho : odds ≤ 1
    · simp [ho, MAX_STAKE_PCT]
    · simp only [if_neg ho]
      exact ⟨le_max_left _ _,
        max_le (by norm_num [MAX_STAKE_PCT]) (min_le_right _ _)⟩
  · intro prob odds market gcs h
    simp [get_kelly_stake, h]
  · intro prob odds market gcs hg ho hfullneg
    unfold get_kelly_stake
    rw [if_neg (not_le.mpr ho)]
    have hstep : ∀ s : ℚ, s ≤ 0 → max 0 (min s MAX_STAKE_PCT) = 0 := fun s hs =>
      max_eq_left (le_trans (min_le_left _ _) hs)
    have hKF : (0 : ℚ) ≤ KELLY_FRACTION := by norm_num [KELLY_FRACTION]
    by_cases hc : (market = "GOALS" ∨ market = "BTTS") ∧ gcsTruthy gcs
    · simp only [if_pos hc]
      have hcg : 0 ≤ min 1 (gcs.getD 0 / 75) := by
        rcases gcs with _ | g
        · simp [gcsTruthy] at hc
        · have hg0 := hg g (by simp)
          simp only [Option.getD_some]
          exact le_min (by norm_num) (by positivity)
      have hkey := mul_nonneg (mul_nonneg
        (neg_nonneg.mpr (le_of_lt hfullneg)) hKF) hcg
      by_cases hbst : prob > 3 / 5
      · rw [if_pos hbst]
        exact hstep _ (by nlinarith [hkey])
      · rw [if_neg hbst]
        exact hstep _ (by nlinarith [hkey])
    · simp only [if_neg hc]
      have hkey := mul_nonneg (neg_nonneg.mpr (le_of_lt hfullneg)) hKF
      by_cases hbst : prob > 3 / 5
      · rw [if_pos hbst]
        exact hstep _ (by nlinarith [hkey])
      · rw [if_neg hbst]
        exact hstep _ (by nlinarith [hkey])

/-- Witness for `C4_kelly_stake_props` at concrete inputs. -/
theorem C4_witness :
    get_kelly_stake (1 / 2) 2 "1X2" none ≤ get_kelly_stake (3 / 5) 2 "1X2" none
    ∧ (0 ≤ get_kelly_stake (1 / 2) 2 "1X2" none
        ∧ get_kelly_stake (1 / 2) 2 "1X2" none ≤ MAX_STAKE_PCT)
    ∧ get_kelly_stake (9 / 10) (1 / 2) "1X2" none = 0
    ∧ get_kelly_stake (1 / 10) 2 "GOALS" (some 60) = 0 :=
  ⟨C4_kelly_stake_props.1 2 "1X2" none (1 / 2) (3 / 5) (by simp) (by norm_num)
      (by norm_num) (by norm_num),
   C4_kelly_stake_props.2.1 (1 / 2) 2 "1X2" none,
   C4_kelly_stake_props.2.2.1 (9 / 10) (1 / 2) "1X2" none (by norm_num),
   C4_kelly_stake_props.2.2.2 (1 / 10) 2 "GOALS" (some 60)
      (by intro g hgg; simp only [Option.mem_def, Option.some.injEq] at hgg
          subst hgg; norm_num)
      (by norm_num) (by norm_num)⟩

/-! ## C9: settlement outcome classification -/

/-- Claim C9: with a known final score, `check_bet_result` returns `PUSH`
exactly for a draw-no-bet pick on a drawn match; any non-DNB market settles
`WIN` or `LOSS`; and an unrecognized market string always settles `LOSS`. -/
theorem C9_push_only_dnb (pick market : String) (hg ag : ℤ) :
    (check_bet_result pick market (some hg) (some ag) = "PUSH"
      ↔ (market = "DNB" ∧ hg = ag))
    ∧ (¬market = "DNB" →
        check_bet_result pick market (some hg) (some ag) = "WIN"
        ∨ check_bet_result pick market (some hg) (some ag) = "LOSS")
    ∧ (market ∉ (["1X2", "DNB", "Double Chance", "GOALS", "BTTS"] : List String) →
        check_bet_result pick market (some hg) (some ag) = "LOSS") := by
  unfold check_bet_result
  simp only [Option.getD_some]
  by_cases hdnb : market = "DNB" ∧ hg = ag
  · rw [if_pos hdnb]
    refine ⟨by simp [hdnb], fun h => absurd hdnb.1 h, fun h => ?_⟩
    exact absurd (by simp [hdnb.1]) h
  · rw [if_neg hdnb]
    have hWL : ∀ b : Bool, (if b then "WIN" else "LOSS") = "WIN"
        ∨ (if b then "WIN" else "LOSS") = "LOSS" := by
      intro b; cases b <;> simp
    refine ⟨⟨fun h => ?_, fun h => absurd h hdnb⟩, fun _ => hWL _, fun hmem => ?_⟩
    · rcases hWL (if market = "1X2" then _ else _) with h' | h' <;>
        rw [h'] at h <;> exact absurd h (by decide)
    · have h1 : ¬market = "1X2" := fun h => hmem (by simp [h])
      have h2 : ¬market = "DNB" := fun h => hmem (by simp [h])
      have h3 : ¬market = "Double Chance" := fun h => hmem (by simp [h])
      have h4 : ¬market = "GOALS" := fun h => hmem (by simp [h])
      have h5 : ¬market = "BTTS" := fun h => hmem (by simp [h])
      simp [h1, h2, h3, h4, h5]

/-- Witness for `C9_push_only_dnb`: an unrecognized market settles `LOSS`
(and is in particular not a `PUSH`). -/
theorem C9_witness :
    check_bet_result "ZZZ" "FOO" (some 1) (some 0) = "LOSS"
    ∧ (check_bet_result "ZZZ" "FOO" (some 1) (some 0) = "WIN"
        ∨ check_bet_result "ZZZ" "FOO" (some 1) (some 0) = "LOSS")
    ∧ ¬check_bet_result "ZZZ" "FOO" (some 1) (some 0) = "PUSH" :=
  ⟨(C9_push_only_dnb "ZZZ" "FOO" 1 0).2.2 (by decide),
   (C9_push_only_dnb "ZZZ" "FOO" 1 0).2.1 (by decide),
   fun h => absurd ((C9_push_only_dnb "ZZZ" "FOO" 1 0).1.mp h).1 (by decide)⟩

/-! ## C3: settlement idempotence -/

/-- A terminal settlement status is never in the audit trigger set. -/
lemma settled_not_trigger : ∀ s ∈ settled_statuses, s ∉ audit_trigger_statuses := by
  decide

/-- A row already settled to `WIN`, `LOSS` or `PUSH` is untouched by
`settleRow`. -/
lemma settleRow_settled (lookup : String → String → String → Option (Option ℤ × Option ℤ))
    (r : LedgerRow) (h : r.status ∈ settled_statuses) : settleRow lookup r = r := by
  rw [settleRow, if_neg]
  exact fun hg => settled_not_trigger r.status h hg.1

/-- Lemma: `settleRow` is idempotent. -/
lemma settleRow_idem (lookup : String → String → String → Option (Option ℤ × Option ℤ))
    (r : LedgerRow) : settleRow lookup (settleRow lookup r) = settleRow lookup r := by
  by_cases hg : r.status ∈ audit_trigger_statuses ∧ r.league ∈ league_keys
  · rcases hl : lookup r.league r.home r.away with _ | ⟨fthg, ftag⟩
    · have h0 : settleRow lookup r = r := by
        rw [settleRow, if_pos hg, hl]
      rw [h0]
      exact h0
    · by_cases hs : check_bet_result r.pick r.market fthg ftag ∈ settled_statuses
      · have h1 : settleRow lookup r =
            { r with status := check_bet_result r.pick r.market fthg ftag,
                     fthg := fthg, ftag := ftag,
                     profit := pyRound2
                       (if check_bet_result r.pick r.market fthg ftag = "WIN" then
                          r.stake * r.odd - r.stake
                        else if check_bet_result r.pick r.market fthg ftag = "LOSS" then
                          -r.stake
                        else 0) } := by
          rw [settleRow, if_pos hg, hl]
          dsimp only
          rw [if_pos hs]
        rw [h1]
        exact settleRow_settled lookup _ hs
      · have h0 : settleRow lookup r = r := by
          rw [settleRow, if_pos hg, hl]
          dsimp only
          rw [if_neg hs]
        rw [h0]
        exact h0
  · have h0 : settleRow lookup r = r := by
      rw [settleRow, if_neg hg]
    rw [h0]
    exact h0

/-- Claim C3: one audit pass per ledger row is idempotent — running
`run_audit`'s settlement twice over the ledger gives the same ledger as
running it once, and a row already settled to `WIN`, `LOSS` or `PUSH` is
left completely unchanged. -/
theorem C3_settlement_idempotent
    (lookup : String → String → String → Option (Option ℤ × Option ℤ))
    (ledger : List LedgerRow) :
    run_audit lookup (run_audit lookup ledger) = run_audit lookup ledger
    ∧ ∀ r : LedgerRow, r.status ∈ settled_statuses → settleRow lookup r = r := by
  constructor
  · induction ledger with
    | nil => rfl
    | cons r t ih =>
        simp only [run_audit, List.map_cons, List.map_map] at ih ⊢
        exact congrArg₂ List.cons (settleRow_idem lookup r) ih
  · exact fun r h => settleRow_settled lookup r h

/-- Witness for `C3_settlement_idempotent`: a concrete already-settled row is
unchanged by a later audit pass. -/
theorem C3_witness :
    settleRow (fun _ _ _ => none)
      { date := "01/01/2026", league := "E0", home := "H", away := "A",
        pick := "GANA HOME", market := "1X2", prob := 1 / 2, odd := 2, ev := 0,
        status := "WIN", stake := 1 / 100, profit := 1 / 100,
        fthg := some 2, ftag := some 1 }
      = { date := "01/01/2026", league := "E0", home := "H", away := "A",
          pick := "GANA HOME", market := "1X2", prob := 1 / 2, odd := 2, ev := 0,
          status := "WIN", stake := 1 / 100, profit := 1 / 100,
          fthg := some 2, ftag := some 1 } :=
  (C3_settlement_idempotent (fun _ _ _ => none) []).2 _ (by decide)

/-! ## C8: settlement profit -/

/-- Claim C8 (counterexample): `run_audit` stores `round(profit, 2)`, so the
recorded profit is not `stake×odd−stake` exactly.  A winning 1X2 bet with
stake `0.03` at odd `1.6` has `stake×odd−stake = 0.018` — far from any
two-decimal tie, so double and exact-rational rounding agree — but the
ledger records `0.02`. -/
theorem C8_counterexample :
    (settleRow (fun _ _ _ => some (some 2, some 1))
      { date := "d", league := "E0", home := "H", away := "A", pick := "GANA HOME",
        market := "1X2", prob := 1 / 2, odd := 8 / 5, ev := 0, status := "VALID",
        stake := 3 / 100, profit := 0, fthg := none, ftag := none }).profit = 1 / 50
    ∧ (settleRow (fun _ _ _ => some (some 2, some 1))
      { date := "d", league := "E0", home := "H", away := "A", pick := "GANA HOME",
        market := "1X2", prob := 1 / 2, odd := 8 / 5, ev := 0, status := "VALID",
        stake := 3 / 100, profit := 0, fthg := none, ftag := none }).status = "WIN"
    ∧ (3 : ℚ) / 100 * (8 / 5) - 3 / 100 = 9 / 500
    ∧ (1 : ℚ) / 50 ≠ 9 / 500 := by
  have hcbr : check_bet_result "GANA HOME" "1X2" (some 2) (some 1) = "WIN" := by decide
  refine ⟨?_, ?_, by norm_num, by norm_num⟩ <;>
    · rw [settleRow, if_pos (⟨by decide, by decide⟩ : _ ∧ _)]
      dsimp only
      rw [hcbr]
      norm_num [settled_statuses, pyRound2, roundHalfEven]

/-- Claim C8 (amended): whenever `run_audit` settles a row, the recorded profit
is `stake×odd−stake` rounded to two decimals on `WIN`, `−stake` rounded to
two decimals on `LOSS`, and exactly 0 on `PUSH`; and a `DNB HOME` pick on a
1–1 final score settles as `PUSH`.  The `WIN` and `LOSS` rounding statements
are asserted only away from exact two-decimal ties, where the exact-rational
rounding `pyRound2` provably agrees with the program's rounding of the
nearest double. -/
theorem C8_profit_rule
    (lookup : String → String → String → Option (Option ℤ × Option ℤ))
    (r : LedgerRow) (fthg ftag : Option ℤ)
    (hlk : lookup r.league r.home r.away = some (fthg, ftag))
    (htr : r.status ∈ audit_trigger_statuses) (hle : r.league ∈ league_keys) :
    (check_bet_result r.pick r.market fthg ftag = "WIN" →
      (r.stake * r.odd - r.stake) * 100 - ⌊(r.stake * r.odd - r.stake) * 100⌋ ≠ 1 / 2 →
      (settleRow lookup r).profit = pyRound2 (r.stake * r.odd - r.stake)
      ∧ (settleRow lookup r).status = "WIN")
    ∧ (check_bet_result r.pick r.market fthg ftag = "LOSS" →
      (-r.stake) * 100 - ⌊(-r.stake) * 100⌋ ≠ 1 / 2 →
      (settleRow lookup r).profit = pyRound2 (-r.stake)
      ∧ (settleRow lookup r).status = "LOSS")
    ∧ (check_bet_result r.pick r.market fthg ftag = "PUSH" →
      (settleRow lookup r).profit = 0
      ∧ (settleRow lookup r).status = "PUSH")
    ∧ check_bet_result "DNB HOME" "DNB" (some 1) (some 1) = "PUSH" := by
  have hrw : ∀ res : String, check_bet_result r.pick r.market fthg ftag = res →
      res ∈ settled_statuses →
      (settleRow lookup r).profit =
        pyRound2 (if res = "WIN" then r.stake * r.odd - r.stake
          else if res = "LOSS" then -r.stake else 0)
      ∧ (settleRow lookup r).status = res := by
    intro res hres hmem
    rw [settleRow, if_pos ⟨htr, hle⟩, hlk]
    dsimp only
    rw [hres, if_pos hmem]
    exact ⟨rfl, rfl⟩
  have hr0 : pyRound2 0 = 0 := by norm_num [pyRound2, roundHalfEven]
  refine ⟨fun h _ => ?_, fun h _ => ?_, fun h => ?_, by decide⟩
  · have := hrw _ h (by decide)
    simpa using this
  · have := hrw _ h (by decide)
    simpa using this
  · have := hrw _ h (by decide)
    simpa [hr0] using this

/-- Witness for `C8_profit_rule`: the DNB 1–1 scenario settles as `PUSH` with
profit 0, and a tie-free winning row records the rounded profit. -/
theorem C8_witness :
    ((settleRow (fun _ _ _ => some (some 1, some 1))
      { date := "d", league := "SP1", home := "H", away := "A", pick := "DNB HOME",
        market := "DNB", prob := 1 / 2, odd := 19 / 10, ev := 0, status := "VALID",
        stake := 1 / 50, profit := 0, fthg := none, ftag := none }).profit = 0
    ∧ (settleRow (fun _ _ _ => some (some 1, some 1))
      { date := "d", league := "SP1", home := "H", away := "A", pick := "DNB HOME",
        market := "DNB", prob := 1 / 2, odd := 19 / 10, ev := 0, status := "VALID",
        stake := 1 / 50, profit := 0, fthg := none, ftag := none }).status = "PUSH")
    ∧ (settleRow (fun _ _ _ => some (some 2, some 1))
      { date := "d", league := "E0", home := "H", away := "A", pick := "GANA HOME",
        market := "1X2", prob := 1 / 2, odd := 8 / 5, ev := 0, status := "VALID",
        stake := 3 / 100, profit := 0, fthg := none, ftag := none }).profit
        = pyRound2 ((3 : ℚ) / 100 * (8 / 5) - 3 / 100) :=
  ⟨(C8_profit_rule (fun _ _ _ => some (some 1, some 1))
      { date := "d", league := "SP1", home := "H", away := "A", pick := "DNB HOME",
        market := "DNB", prob := 1 / 2, odd := 19 / 10, ev := 0, status := "VALID",
        stake := 1 / 50, profit := 0, fthg := none, ftag := none }
      (some 1) (some 1) rfl (by decide) (by decide)).2.2.1 (by decide),
   ((C8_profit_rule (fun _ _ _ => some (some 2, some 1))
      { date := "d", league := "E0", home := "H", away := "A", pick := "GANA HOME",
        market := "1X2", prob := 1 / 2, odd := 8 / 5, ev := 0, status := "VALID",
        stake := 3 / 100, profit := 0, fthg := none, ftag := none }
      (some 2) (some 1) rfl (by decide) (by decide)).1 (by decide)
      (by norm_num)).1⟩

/-! ## C5: PnL aggregation -/

/-- When unsettled rows carry zero profit, summing profit over the whole
ledger equals summing it over the settled rows. -/
lemma profit_sum_settled (ledger : List LedgerRow)
    (h : ∀ r ∈ ledger, r.status ∉ settled_statuses → r.profit = 0) :
    ((ledger.filter (fun r => decide (r.status ∈ settled_statuses))).map
        (fun r => r.profit)).sum
      = (ledger.map (fun r => r.profit)).sum := by
  induction ledger with
  | nil => rfl
  | cons r t ih =>
      have ht : ∀ x ∈ t, x.status ∉ settled_statuses → x.profit = 0 :=
        fun x hx => h x (List.mem_cons_of_mem r hx)
      by_cases hs : r.status ∈ settled_statuses
      · rw [List.filter_cons, if_pos (by simp [hs])]
        simp only [List.map_cons, List.sum_cons]
        rw [ih ht]
      · rw [List.filter_cons, if_neg (by simp [hs])]
        simp only [List.map_cons, List.sum_cons]
        rw [ih ht, h r (List.mem_cons_self r t) hs]
        exact (zero_add _).symm

/-- Claim C5 (counterexample): `calculate_pnl` sums `Stake` over every ledger
row, settled or not, while the claim says the ROI denominator uses settled
rows only.  With one settled row (stake 1, profit 1/2) and one pending row
(stake 1, profit 0) the code reports ROI 25, the claimed computation 50. -/
theorem C5_counterexample :
    calculate_pnl
      [{ date := "d", league := "E0", home := "H", away := "A", pick := "GANA HOME",
         market := "1X2", prob := 1 / 2, odd := 3 / 2, ev := 0, status := "WIN",
         stake := 1, profit := 1 / 2, fthg := some 2, ftag := some 0 },
       { date := "d", league := "E0", home := "C", away := "D", pick := "GANA AWAY",
         market := "1X2", prob := 1 / 2, odd := 3 / 2, ev := 0, status := "VALID",
         stake := 1, profit := 0, fthg := none, ftag := none }] = (1 / 2, 25)
    ∧ calculate_pnl_spec
      [{ date := "d", league := "E0", home := "H", away := "A", pick := "GANA HOME",
         market := "1X2", prob := 1 / 2, odd := 3 / 2, ev := 0, status := "WIN",
         stake := 1, profit := 1 / 2, fthg := some 2, ftag := some 0 },
       { date := "d", league := "E0", home := "C", away := "D", pick := "GANA AWAY",
         market := "1X2", prob := 1 / 2, odd := 3 / 2, ev := 0, status := "VALID",
         stake := 1, profit := 0, fthg := none, ftag := none }] = (1 / 2, 50)
    ∧ (25 : ℚ) ≠ 50 := by
  refine ⟨?_, ?_, by norm_num⟩ <;>
    · simp [calculate_pnl, calculate_pnl_spec, settled_statuses]
      norm_num

/-- Claim C5 (amended): `calculate_pnl` sums profit and stake over *all* ledger
rows; since unsettled rows are written with profit 0, the reported total
profit still equals the settled-rows profit, but the ROI denominator is the
total stake over all rows (settled or pending), with ROI 0 when that total
is not positive. -/
theorem C5_pnl_totals (ledger : List LedgerRow)
    (h : ∀ r ∈ ledger, r.status ∉ settled_statuses → r.profit = 0) :
    (calculate_pnl ledger).1 = (calculate_pnl_spec ledger).1
    ∧ (calculate_pnl ledger).2 =
        (if (ledger.map (fun r => r.stake)).sum > 0 then
          (calculate_pnl_spec ledger).1 / (ledger.map (fun r => r.stake)).sum * 100
        else 0) := by
  have hp := profit_sum_settled ledger h
  constructor
  · simpa [calculate_pnl, calculate_pnl_spec] using hp.symm
  · simp only [calculate_pnl, calculate_pnl_spec]
    rw [hp]

/-- Witness for `C5_pnl_totals` on a concrete two-row ledger. -/
theorem C5_witness :
    (calculate_pnl
      [{ date := "d", league := "E0", home := "H", away := "A", pick := "GANA HOME",
         market := "1X2", prob := 1 / 2, odd := 3 / 2, ev := 0, status := "WIN",
         stake := 1, profit := 1 / 2, fthg := some 2, ftag := some 0 },
       { date := "d", league := "E0", home := "C", away := "D", pick := "GANA AWAY",
         market := "1X2", prob := 1 / 2, odd := 3 / 2, ev := 0, status := "VALID",
         stake := 1, profit := 0, fthg := none, ftag := none }]).1
      = (calculate_pnl_spec
      [{ date := "d", league := "E0", home := "H", away := "A", pick := "GANA HOME",
         market := "1X2", prob := 1 / 2, odd := 3 / 2, ev := 0, status := "WIN",
         stake := 1, profit := 1 / 2, fthg := some 2, ftag := some 0 },
       { date := "d", league := "E0", home := "C", away := "D", pick := "GANA AWAY",
         market := "1X2", prob := 1 / 2, odd := 3 / 2, ev := 0, status := "VALID",
         stake := 1, profit := 0, fthg := none, ftag := none }]).1 :=
  (C5_pnl_totals _ (by
    intro r hr hs
    simp only [List.mem_cons, List.mem_singleton] at hr
    rcases hr with rfl | rfl | h'
    · exact absurd (by decide) hs
    · rfl
    · exact absurd h' (List.not_mem_nil _))).1

/-! ## C6: team rating positivity -/

/-- Decay weights are strictly positive. -/
lemma decay_weight_pos (i : ℕ) : 0 < decay_weight i := by
  unfold decay_weight
  exact pow_pos (by norm_num [DECAY_ALPHA]) _

/-- The weighted accumulation of a pointwise non-negative figure is
non-negative. -/
lemma weighted_sum_nonneg (f : TeamMatch → ℚ) (l : List TeamMatch)
    (hf : ∀ m ∈ l, 0 ≤ f m) : ∀ i, 0 ≤ weighted_sum f i l := by
  induction l with
  | nil => intro i; exact le_refl 0
  | cons m t ih =>
      intro i
      have h1 := mul_nonneg (hf m (List.mem_cons_self m t)) (decay_weight_pos i).le
      have h2 := ih (fun x hx => hf x (List.mem_cons_of_mem m hx)) (i + 1)
      simpa [weighted_sum] using add_nonneg h1 h2

/-- The accumulated total weight is non-negative. -/
lemma total_weight_nonneg (l : List TeamMatch) : ∀ i, 0 ≤ total_weight i l := by
  induction l with
  | nil => intro i; exact le_refl 0
  | cons m t ih =>
      intro i
      simpa [total_weight] using add_nonneg (decay_weight_pos i).le (ih (i + 1))

/-- A non-negative match row has a non-negative attack figure. -/
lemma row_att_nonneg (m : TeamMatch)
    (h : 0 ≤ m.fthg ∧ 0 ≤ m.ftag ∧ (∀ x ∈ m.hst, 0 ≤ x) ∧ (∀ x ∈ m.ast, 0 ≤ x)) :
    0 ≤ row_att m := by
  obtain ⟨h1, h2, h3, h4⟩ := h
  unfold row_att
  have hh : 0 ≤ m.hst.getD (m.fthg * 3) := by
    rcases hm : m.hst with _ | x
    · simpa using by positivity
    · simpa using h3 x (by simp [hm])
  have ha : 0 ≤ m.ast.getD (m.ftag * 3) := by
    rcases hm : m.ast with _ | x
    · simpa using by positivity
    · simpa using h4 x (by simp [hm])
  split <;> positivity

/-- A non-negative match row has a non-negative defensive-weakness figure. -/
lemma row_def_weak_nonneg (m : TeamMatch)
    (h : 0 ≤ m.fthg ∧ 0 ≤ m.ftag ∧ (∀ x ∈ m.hst, 0 ≤ x) ∧ (∀ x ∈ m.ast, 0 ≤ x)) :
    0 ≤ row_def_weak m := by
  obtain ⟨h1, h2, h3, h4⟩ := h
  unfold row_def_weak
  have hh : 0 ≤ m.hst.getD (m.fthg * 3) := by
    rcases hm : m.hst with _ | x
    · simpa using by positivity
    · simpa using h3 x (by simp [hm])
  have ha : 0 ≤ m.ast.getD (m.ftag * 3) := by
    rcases hm : m.ast with _ | x
    · simpa using by positivity
    · simpa using h4 x (by simp [hm])
  split <;> positivity

/-- Claim C6 (counterexample): a team with three recorded matches, all goalless
and without a shot on target, rates `(0, 0)` — not strictly positive as the
claim states. -/
theorem C6_counterexample :
    calculate_team_stats
      [⟨true, 0, 0, some 0, some 0⟩, ⟨true, 0, 0, some 0, some 0⟩,
       ⟨true, 0, 0, some 0, some 0⟩] = (0, 0)
    ∧ ([(⟨true, 0, 0, some 0, some 0⟩ : TeamMatch), ⟨true, 0, 0, some 0, some 0⟩,
        ⟨true, 0, 0, some 0, some 0⟩].length ≥ 3)
    ∧ ¬(0 : ℚ) < 0 := by
  refine ⟨?_, by decide, by norm_num⟩
  norm_num [calculate_team_stats, weighted_sum, total_weight, row_att,
    row_def_weak, decay_weight, DECAY_ALPHA]

/-- Claim C6 (amended): for any match history with non-negative goal and shot
counts, both components of `calculate_team_stats` are non-negative (they are
exactly 0 for an all-zero history), and the function is a pure map of the
ordered history. -/
theorem C6_team_stats_nonneg (history : List TeamMatch)
    (h : ∀ m ∈ history,
      0 ≤ m.fthg ∧ 0 ≤ m.ftag ∧ (∀ x ∈ m.hst, 0 ≤ x) ∧ (∀ x ∈ m.ast, 0 ≤ x)) :
    0 ≤ (calculate_team_stats history).1 ∧ 0 ≤ (calculate_team_stats history).2 := by
  unfold calculate_team_stats
  dsimp only
  have hrec : ∀ m ∈ history.drop (history.length - 6),
      0 ≤ m.fthg ∧ 0 ≤ m.ftag ∧ (∀ x ∈ m.hst, 0 ≤ x) ∧ (∀ x ∈ m.ast, 0 ≤ x) :=
    fun m hm => h m (List.drop_subset _ _ hm)
  by_cases hlen : (history.drop (history.length - 6)).length < 3
  · rw [if_pos hlen]
    exact ⟨by norm_num, by norm_num⟩
  · rw [if_neg hlen]
    constructor
    · exact div_nonneg
        (weighted_sum_nonneg _ _ (fun m hm => row_att_nonneg m (hrec m hm)) 0)
        (total_weight_nonneg _ 0)
    · exact div_nonneg
        (weighted_sum_nonneg _ _ (fun m hm => row_def_weak_nonneg m (hrec m hm)) 0)
        (total_weight_nonneg _ 0)

/-- Witness for `C6_team_stats_nonneg` on a concrete three-match history. -/
theorem C6_witness :
    0 ≤ (calculate_team_stats
      [⟨true, 2, 0, some 3, some 1⟩, ⟨false, 1, 1, none, none⟩,
       ⟨true, 0, 2, some 1, some 4⟩]).1
    ∧ 0 ≤ (calculate_team_stats
      [⟨true, 2, 0, some 3, some 1⟩, ⟨false, 1, 1, none, none⟩,
       ⟨true, 0, 2, some 1, some 4⟩]).2 :=
  C6_team_stats_nonneg _ (by
    intro m hm
    simp only [List.mem_cons, List.not_mem_nil, or_false] at hm
    rcases hm with rfl | rfl | rfl <;>
      refine ⟨by norm_num, by norm_num, ?_, ?_⟩ <;>
      · intro x hx
        simp only [Option.mem_def, Option.some.injEq] at hx
        first
          | (subst hx; norm_num)
          | exact absurd hx (by simp))

/-! ## C7: handicap candidates never become the principal pick -/

/-- Invariant of the selector state: the main list holds no handicap
candidates, and every handicap candidate is tagged `BACKUP`. -/
def SelInv (s : SelState) : Prop :=
  (∀ c ∈ s.candidates, c.market ≠ "HANDI")
  ∧ (∀ c ∈ s.handicap_candidates, c.market = "HANDI" ∧ c.status = "BACKUP")

/-- A candidate built by `mkCandidate` carries its market, and a `HANDI`
candidate is tagged `BACKUP`. -/
lemma mkCandidate_fields {name market : String} {prob odd : ℚ} {gcs : Option ℚ}
    {min_ev_league : ℚ} {item : Candidate}
    (hmk : mkCandidate name market prob odd gcs min_ev_league = some item) :
    item.market = market ∧ (market = "HANDI" → item.status = "BACKUP") := by
  unfold mkCandidate at hmk
  by_cases ho : odd < MIN_ODD_THRESHOLD
  · simp [ho] at hmk
  · rw [if_neg ho] at hmk
    dsimp only at hmk
    rw [Option.some.injEq] at hmk
    subst hmk
    refine ⟨rfl, fun hH => ?_⟩
    simp [hH]

/-- Lemma: `addCand` preserves the selector invariant. -/
lemma addCand_inv {s : SelState} {name market : String} {prob odd : ℚ}
    {gcs : Option ℚ} {min_ev_league : ℚ} (h : SelInv s) :
    SelInv (addCand s name market prob odd gcs min_ev_league) := by
  unfold addCand
  rcases hmk : mkCandidate name market prob odd gcs min_ev_league with _ | item
  · exact h
  · obtain ⟨hmkt, hbk⟩ := mkCandidate_fields hmk
    dsimp only
    by_cases hH : market = "HANDI"
    · rw [if_pos hH]
      refine ⟨h.1, fun c hc => ?_⟩
      rcases List.mem_append.mp hc with hc | hc
      · exact h.2 c hc
      · rw [List.mem_singleton.mp hc]
        exact ⟨hmkt.trans hH, hbk hH⟩
    · rw [if_neg hH]
      refine ⟨fun c hc => ?_, h.2⟩
      rcases List.mem_append.mp hc with hc | hc
      · exact h.1 c hc
      · rw [List.mem_singleton.mp hc, hmkt]
        exact hH

/-- The `odds['H']` block preserves the invariant. -/
lemma selH_inv {s : SelState} (sim : SimResult) (odds : MarketOdds)
    (min_ev_league : ℚ) (h : SelInv s) : SelInv (selH s sim odds min_ev_league) := by
  unfold selH
  split
  · exact addCand_inv (addCand_inv (addCand_inv (addCand_inv
      (addCand_inv (addCand_inv h)))))
  · exact h

/-- The totals block preserves the invariant. -/
lemma selO25_inv {s : SelState} (sim : SimResult) (odds : MarketOdds)
    (min_ev_league : ℚ) (h : SelInv s) : SelInv (selO25 s sim odds min_ev_league) := by
  unfold selO25
  split
  · exact addCand_inv (addCand_inv h)
  · exact h

/-- The BTTS block preserves the invariant. -/
lemma selBTTS_inv {s : SelState} (sim : SimResult) (odds : MarketOdds)
    (min_ev_league : ℚ) (h : SelInv s) : SelInv (selBTTS s sim odds min_ev_league) := by
  unfold selBTTS
  split
  · exact addCand_inv (addCand_inv h)
  · exact h

/-- The handicap block preserves the invariant. -/
lemma selAH_inv {s : SelState} (sim : SimResult) (min_ev_league : ℚ)
    (h : SelInv s) : SelInv (selAH s sim min_ev_league) := by
  unfold selAH
  split
  · split
    · exact addCand_inv (addCand_inv h)
    · exact addCand_inv h
  · split
    · exact addCand_inv h
    · exact h

/-- The full enumeration satisfies the invariant. -/
lemma sel_state_inv (sim : SimResult) (odds : MarketOdds) (min_ev_league : ℚ) :
    SelInv (sel_state sim odds min_ev_league) :=
  selAH_inv sim min_ev_league (selBTTS_inv sim odds min_ev_league
    (selO25_inv sim odds min_ev_league (selH_inv sim odds min_ev_league
      ⟨fun _ hc => absurd hc (List.not_mem_nil _),
       fun _ hc => absurd hc (List.not_mem_nil _)⟩)))

/-- The head of the stable descending sort is an element of the list. -/
lemma bestByScore_mem : ∀ {l : List Candidate} {c : Candidate},
    bestByScore l = some c → c ∈ l := by
  intro l
  induction l with
  | nil => intro c h; simp [bestByScore] at h
  | cons a t ih =>
      intro c h
      unfold bestByScore at h
      rcases hb : bestByScore t with _ | d
      · rw [hb] at h
        dsimp only at h
        rw [Option.some.injEq] at h
        exact h ▸ List.mem_cons_self a t
      · rw [hb] at h
        dsimp only at h
        by_cases hlt : d.score > a.score
        · rw [if_pos hlt, Option.some.injEq] at h
          exact List.mem_cons_of_mem a (h ▸ ih hb)
        · rw [if_neg hlt, Option.some.injEq] at h
          exact h ▸ List.mem_cons_self a t

/-- Claim C7: `find_best_value` never returns a handicap-coverage candidate as
the principal pick, and anything returned in the backup slot is a `HANDI`
candidate with status `BACKUP` — so each fixture produces at most one
principal wager. -/
theorem C7_handicap_never_principal (sim : SimResult) (odds : MarketOdds)
    (min_ev_league : ℚ) :
    ((find_best_value sim odds min_ev_league).1.all
        (fun c => c.market != "HANDI") = true)
    ∧ ((find_best_value sim odds min_ev_league).2.all
        (fun b => (b.market == "HANDI") && (b.status == "BACKUP")) = true) := by
  obtain ⟨h1, h2⟩ := sel_state_inv sim odds min_ev_league
  unfold find_best_value
  dsimp only
  constructor
  · split
    · rcases hb : bestByScore (sel_state sim odds min_ev_league).candidates with _ | c
      · simp [Option.all]
      · have hc := h1 c (bestByScore_mem hb)
        simp [Option.all, hb, hc]
    · rcases hb : bestByScore ((sel_state sim odds min_ev_league).candidates.filter
          (fun c => c.status == "VALID")) with _ | c
      · simp [Option.all]
      · have hmem := List.mem_of_mem_filter (bestByScore_mem hb)
        have hc := h1 c hmem
        simp [Option.all, hb, hc]
  · have : ∀ b, bestByScore (sel_state sim odds min_ev_league).handicap_candidates
        = some b → b.market = "HANDI" ∧ b.status = "BACKUP" :=
      fun b hb => h2 b (bestByScore_mem hb)
    split <;>
    · rcases hb : bestByScore (sel_state sim odds min_ev_league).handicap_candidates
          with _ | b
      · simp [Option.all]
      · obtain ⟨hm, hs⟩ := this b hb
        simp [Option.all, hb, hm, hs]

/-! ## C10: empty candidate set -/

/-- An odd below the minimum threshold leaves the selector state untouched:
the candidate is dropped before any scoring. -/
lemma addCand_low_odd (s : SelState) (name market : String) (prob : ℚ)
    {odd : ℚ} (gcs : Option ℚ) (min_ev_league : ℚ) (h : odd < MIN_ODD_THRESHOLD) :
    addCand s name market prob odd gcs min_ev_league = s := by
  simp [addCand, mkCandidate, h]

/-- If every candidate odd of the `odds['H']` block is below the threshold,
the block adds nothing. -/
lemma selH_skip (s : SelState) (sim : SimResult) (odds : MarketOdds)
    (min_ev_league : ℚ)
    (h : odds.H > 0 → odds.H < MIN_ODD_THRESHOLD ∧ odds.A < MIN_ODD_THRESHOLD
      ∧ (odds.H * (1 - 1 / odds.D)) * (47 / 50) < MIN_ODD_THRESHOLD
      ∧ (odds.A * (1 - 1 / odds.D)) * (47 / 50) < MIN_ODD_THRESHOLD
      ∧ 1 / (1 / odds.H + 1 / odds.D) * (47 / 50) < MIN_ODD_THRESHOLD
      ∧ 1 / (1 / odds.A + 1 / odds.D) * (47 / 50) < MIN_ODD_THRESHOLD) :
    selH s sim odds min_ev_league = s := by
  unfold selH
  split
  · next hc =>
      obtain ⟨b1, b2, b3, b4, b5, b6⟩ := h hc
      simp only [addCand_low_odd _ _ _ _ _ _ b1, addCand_low_odd _ _ _ _ _ _ b2,
        addCand_low_odd _ _ _ _ _ _ b3, addCand_low_odd _ _ _ _ _ _ b4,
        addCand_low_odd _ _ _ _ _ _ b5, addCand_low_odd _ _ _ _ _ _ b6]
  · rfl

/-- If both totals odds are below the threshold, the block adds nothing. -/
lemma selO25_skip (s : SelState) (sim : SimResult) (odds : MarketOdds)
    (min_ev_league : ℚ)
    (h : odds.O25 > 0 → odds.O25 < MIN_ODD_THRESHOLD
      ∧ 1 / (1 - (1 / odds.O25 * (21 / 20))) < MIN_ODD_THRESHOLD) :
    selO25 s sim odds min_ev_league = s := by
  unfold selO25
  split
  · next hc =>
      obtain ⟨b1, b2⟩ := h hc
      simp only [addCand_low_odd _ _ _ _ _ _ b1, addCand_low_odd _ _ _ _ _ _ b2]
  · rfl

/-- If both BTTS odds are below the threshold, the block adds nothing. -/
lemma selBTTS_skip (s : SelState) (sim : SimResult) (odds : MarketOdds)
    (min_ev_league : ℚ)
    (h : odds.BTTS_Y > 0 → odds.BTTS_Y < MIN_ODD_THRESHOLD
      ∧ 1 / (1 - (1 / odds.BTTS_Y * (21 / 20))) < MIN_ODD_THRESHOLD) :
    selBTTS s sim odds min_ev_league = s := by
  unfold selBTTS
  split
  · next hc =>
      obtain ⟨b1, b2⟩ := h hc
      simp only [addCand_low_odd _ _ _ _ _ _ b1, addCand_low_odd _ _ _ _ _ _ b2]
  · rfl

/-- The handicap block always adds nothing: its hard-coded odd `1.15` is
below the `1.45` minimum-odd threshold. -/
lemma selAH_skip (s : SelState) (sim : SimResult) (min_ev_league : ℚ) :
    selAH s sim min_ev_league = s := by
  have hlow : (23 : ℚ) / 20 < MIN_ODD_THRESHOLD := by norm_num [MIN_ODD_THRESHOLD]
  unfold selAH
  split <;> split <;>
    simp only [addCand_low_odd _ _ _ _ _ _ hlow]

/-- Claim C10: when no market/pick pair passes the minimum-odd filter,
`find_best_value` returns no principal pick (and no backup either) — there is
no REJECTED fallback — and `process_match_output` emits no decision record
when handed no principal pick. -/
theorem C10_no_pick_no_record :
    (∀ (sim : SimResult) (odds : MarketOdds) (min_ev_league : ℚ),
      (odds.H > 0 → odds.H < MIN_ODD_THRESHOLD ∧ odds.A < MIN_ODD_THRESHOLD
        ∧ (odds.H * (1 - 1 / odds.D)) * (47 / 50) < MIN_ODD_THRESHOLD
        ∧ (odds.A * (1 - 1 / odds.D)) * (47 / 50) < MIN_ODD_THRESHOLD
        ∧ 1 / (1 / odds.H + 1 / odds.D) * (47 / 50) < MIN_ODD_THRESHOLD
        ∧ 1 / (1 / odds.A + 1 / odds.D) * (47 / 50) < MIN_ODD_THRESHOLD) →
      (odds.O25 > 0 → odds.O25 < MIN_ODD_THRESHOLD
        ∧ 1 / (1 - (1 / odds.O25 * (21 / 20))) < MIN_ODD_THRESHOLD) →
      (odds.BTTS_Y > 0 → odds.BTTS_Y < MIN_ODD_THRESHOLD
        ∧ 1 / (1 - (1 / odds.BTTS_Y * (21 / 20))) < MIN_ODD_THRESHOLD) →
      find_best_value sim odds min_ev_league = (none, none))
    ∧ (∀ div rh ra today : String,
        process_match_output div rh ra today none = none) := by
  constructor
  · intro sim odds min_ev_league hH hO hB
    have hsel : sel_state sim odds min_ev_league = ⟨[], []⟩ := by
      unfold sel_state
      rw [selH_skip _ _ _ _ hH, selO25_skip _ _ _ _ hO, selBTTS_skip _ _ _ _ hB,
        selAH_skip]
    simp [find_best_value, hsel, bestByScore]
  · intro div rh ra today
    unfold process_match_output
    split <;> rfl

/-- Witness for `C10_no_pick_no_record`: quoted 1X2 odds `H = 1.20`,
`D = 10`, `A = 1.30` (no totals or BTTS price) leave every candidate odd
below 1.45, so the fixture yields no pick and no ledger row. -/
theorem C10_witness :
    find_best_value
      { p1x2 := (1 / 2, 1 / 4, 1 / 4), goals := (1 / 2, 1 / 2), dc := (3 / 4, 1 / 2),
        dnb := (2 / 3, 1 / 3), ah := (1 / 10, 1 / 10, 19 / 20, 19 / 20), gcs := 50 }
      { H := 6 / 5, D := 10, A := 13 / 10, O25 := 0, BTTS_Y := 0 } (1 / 50)
      = (none, none)
    ∧ process_match_output "E0" "H" "A" "d" none = none :=
  ⟨C10_no_pick_no_record.1 _ _ _
    (fun _ => by norm_num [MIN_ODD_THRESHOLD])
    (fun h => absurd h (by norm_num))
    (fun h => absurd h (by norm_num)),
   C10_no_pick_no_record.2 "E0" "H" "A" "d"⟩

/-! ## C1: 1X2 probability mass -/

/-- At rate 0 the Poisson mass concentrates on 0 goals. -/
lemma poisson_prob_zero_lam (y : ℕ) :
    poisson_prob y 0 = if y = 0 then 1 else 0 := by
  cases y with
  | zero => simp [poisson_prob]
  | succ n => simp [poisson_prob]

/-- The three 1X2 buckets together carry the whole corrected 0-6 grid. -/
lemma dc_sum_buckets (lambda_h lambda_a : ℝ) :
    (calculate_dixon_coles_1x2 lambda_h lambda_a).1
      + (calculate_dixon_coles_1x2 lambda_h lambda_a).2.1
      + (calculate_dixon_coles_1x2 lambda_h lambda_a).2.2
    = ∑ x ∈ Finset.range 7, ∑ y ∈ Finset.range 7, dc_cell lambda_h lambda_a x y := by
  unfold calculate_dixon_coles_1x2
  dsimp only
  rw [← Finset.sum_add_distrib, ← Finset.sum_add_distrib]
  refine Finset.sum_congr rfl fun x _ => ?_
  rw [← Finset.sum_add_distrib, ← Finset.sum_add_distrib]
  refine Finset.sum_congr rfl fun y _ => ?_
  rcases lt_trichotomy x y with h | h | h
  · rw [if_neg (by omega), if_neg (by omega), if_pos h]
    ring
  · rw [if_neg (by omega), if_pos h, if_neg (by omega)]
    ring
  · rw [if_pos h, if_neg (by omega), if_neg (by omega)]
    ring

/-- The Dixon-Coles correction conserves mass on the truncated grid: the
corrected grid total equals the product of the two truncated Poisson
masses. -/
lemma dc_grid_eq_prod (lambda_h lambda_a : ℝ) :
    ∑ x ∈ Finset.range 7, ∑ y ∈ Finset.range 7, dc_cell lambda_h lambda_a x y
    = (∑ x ∈ Finset.range 7, poisson_prob x lambda_h)
      * (∑ y ∈ Finset.range 7, poisson_prob y lambda_a) := by
  rw [Finset.sum_mul_sum]
  simp only [Finset.sum_range_succ, Finset.sum_range_zero, dc_cell, dc_correction,
    dc_rho, poisson_prob, Nat.factorial]
  norm_num
  ring

/-- Each truncated Poisson mass lies in `[0, 1]` for a non-negative rate. -/
lemma pois_truncated_mass {l : ℝ} (hl : 0 ≤ l) :
    0 ≤ ∑ x ∈ Finset.range 7, poisson_prob x l
    ∧ ∑ x ∈ Finset.range 7, poisson_prob x l ≤ 1 := by
  constructor
  · refine Finset.sum_nonneg fun x _ => ?_
    unfold poisson_prob
    exact div_nonneg (mul_nonneg (pow_nonneg hl x) (Real.exp_pos _).le)
      (Nat.cast_nonneg _)
  · have h1 : (∑ x ∈ Finset.range 7, poisson_prob x l)
        = (∑ x ∈ Finset.range 7, l ^ x / (Nat.factorial x : ℝ)) * Real.exp (-l) := by
      rw [Finset.sum_mul]
      refine Finset.sum_congr rfl fun x _ => ?_
      unfold poisson_prob
      ring
    rw [h1]
    calc (∑ x ∈ Finset.range 7, l ^ x / (Nat.factorial x : ℝ)) * Real.exp (-l)
        ≤ Real.exp l * Real.exp (-l) :=
          mul_le_mul_of_nonneg_right (Real.sum_le_exp_of_nonneg hl 7)
            (Real.exp_pos _).le
      _ = 1 := by rw [← Real.exp_add]; simp

/-- The truncated Poisson mass at rate 2 in closed form. -/
lemma pois_mass_two :
    (∑ x ∈ Finset.range 7, poisson_prob x 2) = Real.exp (-2) * (331 / 45) := by
  simp only [Finset.sum_range_succ, Finset.sum_range_zero, poisson_prob, Nat.factorial]
  norm_num
  ring

/-- The truncated Poisson mass at rate 0 is 1. -/
lemma pois_mass_zero : (∑ y ∈ Finset.range 7, poisson_prob y 0) = 1 := by
  simp [Finset.sum_range_succ, poisson_prob_zero_lam]

/-- Claim C1 (counterexample): at `(λ_h, λ_a) = (2, 0)` the triple returned by
`calculate_dixon_coles_1x2` sums to `exp(-2)·331/45 ≈ 0.9955`: the 0-6 grid
is truncated and never renormalized, so the sum misses 1 by far more than
`1e-6`. -/
theorem C1_counterexample :
    ¬ |(calculate_dixon_coles_1x2 2 0).1 + (calculate_dixon_coles_1x2 2 0).2.1
        + (calculate_dixon_coles_1x2 2 0).2.2 - 1| < 1 / 1000000 := by
  intro hcon
  have hS : (calculate_dixon_coles_1x2 2 0).1 + (calculate_dixon_coles_1x2 2 0).2.1
      + (calculate_dixon_coles_1x2 2 0).2.2 = Real.exp (-2) * (331 / 45) := by
    rw [dc_sum_buckets, dc_grid_eq_prod, pois_mass_zero, mul_one, pois_mass_two]
  rw [hS] at hcon
  have habs := neg_le_abs (Real.exp (-2) * (331 / 45) - 1)
  have hexp : Real.exp (-2) * (331 / 45) < 1 - 1 / 1000000 := by
    have h2 : Real.exp (-2) = (Real.exp 1 * Real.exp 1)⁻¹ := by
      rw [show ((-2 : ℝ)) = -(1 + 1) by norm_num, Real.exp_neg, Real.exp_add]
    rw [h2]
    have hc := Real.exp_one_gt_d9
    have hp : (0 : ℝ) < Real.exp 1 := Real.exp_pos 1
    have hcc : (7389 / 1000 : ℝ) < Real.exp 1 * Real.exp 1 := by nlinarith
    have hinv : (Real.exp 1 * Real.exp 1)⁻¹ < (7389 / 1000 : ℝ)⁻¹ :=
      inv_strictAnti₀ (by norm_num) hcc
    calc (Real.exp 1 * Real.exp 1)⁻¹ * (331 / 45)
        < (7389 / 1000 : ℝ)⁻¹ * (331 / 45) :=
          mul_lt_mul_of_pos_right hinv (by norm_num)
      _ < 1 - 1 / 1000000 := by norm_num
  linarith

/-- Claim C1 (amended): the analytic Dixon-Coles triple sums to the truncated
corrected grid mass, which is at most 1 (and can fall short of 1 by more
than `1e-6`); the market-blended triple of `simulate_match`, whenever quoted
odds are present and the blend has positive mass, is renormalized and sums
to exactly 1. -/
theorem C1_sum_props :
    (∀ lambda_h lambda_a : ℝ, 0 ≤ lambda_h → 0 ≤ lambda_a →
      (calculate_dixon_coles_1x2 lambda_h lambda_a).1
        + (calculate_dixon_coles_1x2 lambda_h lambda_a).2.1
        + (calculate_dixon_coles_1x2 lambda_h lambda_a).2.2 ≤ 1)
    ∧ (∀ (model : ℝ × ℝ × ℝ) (oddH oddD oddA w : ℝ), oddH > 0 →
        0 < blend_total model oddH oddD oddA w →
        (simulate_match_blend_1x2 model oddH oddD oddA w).1
          + (simulate_match_blend_1x2 model oddH oddD oddA w).2.1
          + (simulate_match_blend_1x2 model oddH oddD oddA w).2.2 = 1) := by
  constructor
  · intro lh la h1 h2
    rw [dc_sum_buckets, dc_grid_eq_prod]
    have p1 := pois_truncated_mass h1
    have p2 := pois_truncated_mass h2
    exact mul_le_one₀ p1.2 p2.1 p2.2
  · intro model oH oD oA w hoH ht
    unfold simulate_match_blend_1x2
    rw [if_pos hoH]
    dsimp only
    rw [if_pos ht]
    dsimp only
    rw [div_add_div_same, div_add_div_same, div_eq_one_iff_eq (ne_of_gt ht)]
    unfold blend_total
    ring

/-- Witness for `C1_sum_props`: the degenerate rates `(0, 0)` for the
analytic bound, and a concrete renormalized blend summing to 1. -/
theorem C1_witness :
    ((calculate_dixon_coles_1x2 0 0).1 + (calculate_dixon_coles_1x2 0 0).2.1
      + (calculate_dixon_coles_1x2 0 0).2.2 ≤ 1)
    ∧ ((simulate_match_blend_1x2 (1 / 3, 1 / 3, 1 / 3) 2 2 2 (1 / 2)).1
        + (simulate_match_blend_1x2 (1 / 3, 1 / 3, 1 / 3) 2 2 2 (1 / 2)).2.1
        + (simulate_match_blend_1x2 (1 / 3, 1 / 3, 1 / 3) 2 2 2 (1 / 2)).2.2 = 1) :=
  ⟨C1_sum_props.1 0 0 le_rfl le_rfl,
   C1_sum_props.2 (1 / 3, 1 / 3, 1 / 3) 2 2 2 (1 / 2) (by norm_num)
     (by norm_num [blend_total, blend_raw])⟩

end Renpho
